import Mathlib

/-!
Shallow embedding of `src/worker.js`, a URL-path-based HTTP forwarding proxy
(a Cloudflare Worker).

Modelling conventions:
* JS strings are Lean `String`s; all string manipulation is implemented on the
  underlying `List Char` with executable helpers so that concrete instances
  evaluate with `decide`.
* A JS `Headers` object is a list of name/value pairs.  The runtime stores
  header names lower-cased; `hget`/`hset`/`hhas` model `Headers.get/set/has`,
  which are case-insensitive in the name argument.
* Thrown JS exceptions are modelled with `Except String` carrying the
  exception message; the worker's top-level `try/catch` becomes a `match`.
* The outbound `fetch` is modelled by passing the upstream response as an
  argument and recording the outbound request(s) that the handler issues, so
  that "performs no outbound fetch" is expressible.
-/

namespace Worker

/-- Does the character list `l` start with the pattern `pat`? -/
def listStartsWith : List Char → List Char → Bool
  | _, [] => true
  | [], _ :: _ => false
  | a :: as, b :: bs => a == b && listStartsWith as bs

/-- Model of JS `startsWith` on strings. -/
def strStarts (s pat : String) : Bool := listStartsWith s.data pat.data

/-- Does the character list `l` end with the pattern `pat`? -/
def listEndsWith (l pat : List Char) : Bool := listStartsWith l.reverse pat.reverse

/-- Model of JS `endsWith` on strings. -/
def strEnds (s pat : String) : Bool := listEndsWith s.data pat.data

/-- Does `l` contain `pat` as a contiguous substring? -/
def listHasSub (pat : List Char) : List Char → Bool
  | [] => listStartsWith [] pat
  | c :: cs => listStartsWith (c :: cs) pat || listHasSub pat cs

/-- Model of JS `String.prototype.includes`. -/
def strHasSub (s pat : String) : Bool := listHasSub pat.data s.data

/-- ASCII lower-casing of one character (JS `toLowerCase` restricted to the
ASCII header names and scheme strings this worker manipulates). -/
def lcChar (c : Char) : Char :=
  if 65 ≤ c.toNat ∧ c.toNat ≤ 90 then Char.ofNat (c.toNat + 32) else c

/-- ASCII lower-casing of a string. -/
def lcStr (s : String) : String := ⟨s.data.map lcChar⟩

/-- A JS `Headers` object: name/value pairs, names stored lower-cased. -/
abbrev HdrList := List (String × String)

/-- Model of `headers.get(name)`: value of the first entry with the given
(case-insensitively compared) name, if any. -/
def hget (hs : HdrList) (n : String) : Option String :=
  (hs.find? (fun p => p.1 == lcStr n)).map (fun p => p.2)

/-- Model of `headers.has(name)`. -/
def hhas (hs : HdrList) (n : String) : Bool := (hget hs n).isSome

/-- Model of `headers.set(name, value)`: drop any entry with that name, append the new
entry.  (JS `Headers` keeps a canonical internal order; no claim depends on
entry order, only on membership and lookup.) -/
def hset (hs : HdrList) (n v : String) : HdrList :=
  hs.filter (fun p => !(p.1 == lcStr n)) ++ [(lcStr n, v)]

/-- Model of `filterHeaders(headers, filterFunc)` (worker.js lines 150-152): keep the
entries whose name satisfies the predicate. -/
def filterHeaders (hs : HdrList) (filterFunc : String → Bool) : HdrList :=
  hs.filter (fun p => filterFunc p.1)

/-- The header predicate passed to `filterHeaders` at worker.js lines 28-30:
`!name.startsWith('cf-') && name.toLowerCase() !== 'host'`. -/
def keepHeader (n : String) : Bool :=
  !(strStarts n "cf-") && !(lcStr n == "host")

/-- Model of `ensureProtocol(url, defaultProtocol)` (worker.js lines 90-92).
`defaultProtocol` is a JS `URL.protocol`, i.e. it ends with a colon. -/
def ensureProtocol (url defaultProtocol : String) : String :=
  if strStarts url "http://" || strStarts url "https://" then url
  else defaultProtocol ++ "//" ++ url

/-- Is `c` an ASCII letter? -/
def isAlphaCh (c : Char) : Bool :=
  (65 ≤ c.toNat ∧ c.toNat ≤ 90) || (97 ≤ c.toNat ∧ c.toNat ≤ 122)

/-- Is `c` an ASCII digit? -/
def isDigitCh (c : Char) : Bool := 48 ≤ c.toNat ∧ c.toNat ≤ 57

/-- UTF-8 encoding of one code point, as a list of byte values. -/
def utf8EncodeChar (c : Char) : List Nat :=
  let n := c.toNat
  if n < 128 then [n]
  else if n < 2048 then [192 + n / 64, 128 + n % 64]
  else if n < 65536 then [224 + n / 4096, 128 + (n / 64) % 64, 128 + n % 64]
  else [240 + n / 262144, 128 + (n / 4096) % 64, 128 + (n / 64) % 64, 128 + n % 64]

/-- Characters that `encodeURIComponent` leaves unescaped:
`A-Z a-z 0-9 - _ . ! ~ * ' ( )`. -/
def isUnreservedURI (c : Char) : Bool :=
  isAlphaCh c || isDigitCh c || c == '-' || c == '_' || c == '.' || c == '!' ||
    c == '~' || c == '*' || c == '\'' || c == '(' || c == ')'

/-- Upper-case hexadecimal digit for `n < 16`. -/
def hexUpper (n : Nat) : Char :=
  if n < 10 then Char.ofNat (48 + n) else Char.ofNat (55 + n)

/-- Percent-escape of one byte, upper-case hex (as `encodeURIComponent`
emits it). -/
def pctEncodeByte (b : Nat) : List Char :=
  ['%', hexUpper (b / 16), hexUpper (b % 16)]

/-- Model of JS `encodeURIComponent`: unreserved characters pass through, every other
character is UTF-8 encoded and each byte percent-escaped. -/
def encodeURIComponent (s : String) : String :=
  ⟨(s.data.map (fun c =>
      if isUnreservedURI c then [c]
      else ((utf8EncodeChar c).map pctEncodeByte).flatten)).flatten⟩

/-- Value of a hexadecimal digit character, if it is one. -/
def hexVal (c : Char) : Option Nat :=
  if 48 ≤ c.toNat ∧ c.toNat ≤ 57 then some (c.toNat - 48)
  else if 65 ≤ c.toNat ∧ c.toNat ≤ 70 then some (c.toNat - 55)
  else if 97 ≤ c.toNat ∧ c.toNat ≤ 102 then some (c.toNat - 87)
  else none

/-- Turn a percent-encoded character sequence into the byte sequence it
denotes: `%XX` contributes the byte `XX` (a `%` not followed by two hex
digits is the `URIError` that `decodeURIComponent` throws), any other
character contributes its own UTF-8 bytes. -/
def uriBytes : List Char → Except String (List Nat)
  | [] => .ok []
  | '%' :: h1 :: h2 :: rest =>
    match hexVal h1, hexVal h2 with
    | some a, some b => (uriBytes rest).map (fun bs => (a * 16 + b) :: bs)
    | _, _ => .error "URI malformed"
  | '%' :: _ => .error "URI malformed"
  | c :: rest => (uriBytes rest).map (fun bs => utf8EncodeChar c ++ bs)

/-- Is `b` a UTF-8 continuation byte? -/
def isCont (b : Nat) : Bool := 128 ≤ b ∧ b ≤ 191

/-- Strict UTF-8 decoding of a byte sequence; overlong encodings, surrogate
code points and out-of-range sequences are rejected, exactly the cases in
which `decodeURIComponent` throws `URIError`. -/
def utf8Decode : List Nat → Except String (List Char)
  | [] => .ok []
  | b :: rest =>
    if b < 128 then (utf8Decode rest).map (fun cs => Char.ofNat b :: cs)
    else if b < 194 then .error "URI malformed"
    else if b < 224 then
      match rest with
      | b1 :: rest2 =>
        if isCont b1 then
          (utf8Decode rest2).map (fun cs => Char.ofNat ((b - 192) * 64 + (b1 - 128)) :: cs)
        else .error "URI malformed"
      | [] => .error "URI malformed"
    else if b < 240 then
      match rest with
      | b1 :: b2 :: rest3 =>
        if isCont b1 && isCont b2 then
          let cp := (b - 224) * 4096 + (b1 - 128) * 64 + (b2 - 128)
          if cp < 2048 ∨ (55296 ≤ cp ∧ cp ≤ 57343) then .error "URI malformed"
          else (utf8Decode rest3).map (fun cs => Char.ofNat cp :: cs)
        else .error "URI malformed"
      | _ => .error "URI malformed"
    else if b ≤ 244 then
      match rest with
      | b1 :: b2 :: b3 :: rest4 =>
        if isCont b1 && isCont b2 && isCont b3 then
          let cp := (b - 240) * 262144 + (b1 - 128) * 4096 + (b2 - 128) * 64 + (b3 - 128)
          if cp < 65536 ∨ 1114111 < cp then .error "URI malformed"
          else (utf8Decode rest4).map (fun cs => Char.ofNat cp :: cs)
        else .error "URI malformed"
      | _ => .error "URI malformed"
    else .error "URI malformed"

/-- Model of JS `decodeURIComponent`: percent-escapes are decoded to bytes and the
byte stream is strict-UTF-8 decoded; any malformed escape or invalid byte
sequence raises `URIError: URI malformed`. -/
def decodeURIComponent (s : String) : Except String String :=
  match uriBytes s.data with
  | .error e => .error e
  | .ok bs => (utf8Decode bs).map (fun cs => ⟨cs⟩)

/-- Split a character list at the first occurrence of `ch`: the part before
it and, when present, the part after it. -/
def splitAtChar (ch : Char) : List Char → List Char × Option (List Char)
  | [] => ([], none)
  | a :: as =>
    if a == ch then ([], some as)
    else
      let (pre, post) := splitAtChar ch as
      (a :: pre, post)

/-- Split a character list at the last occurrence of `ch`, when there is
one: (part before, part after). -/
def splitLastAt (ch : Char) (l : List Char) : Option (List Char × List Char) :=
  match splitAtChar ch l.reverse with
  | (_, none) => none
  | (revAfter, some revBefore) => some (revBefore.reverse, revAfter.reverse)

/-- May `c` appear inside a URL scheme (after the first character)? -/
def isSchemeCh (c : Char) : Bool :=
  isAlphaCh c || isDigitCh c || c == '+' || c == '-' || c == '.'

/-- Scan the tail of a scheme up to the terminating colon. -/
def takeSchemeAux (acc : List Char) : List Char → Option (List Char × List Char)
  | [] => none
  | c :: cs =>
    if c == ':' then some (acc.reverse, cs)
    else if isSchemeCh c then takeSchemeAux (c :: acc) cs
    else none

/-- Split a leading `scheme:` off a URL string: the scheme (without the
colon) and the remainder, or `none` when the string has no scheme. -/
def takeScheme : List Char → Option (List Char × List Char)
  | [] => none
  | c :: cs => if isAlphaCh c then takeSchemeAux [c] cs else none

/-- Split off a trailing `#fragment` (at the first `#`); the fragment keeps
its `#`. -/
def splitHash (l : List Char) : List Char × List Char :=
  match splitAtChar '#' l with
  | (pre, none) => (pre, [])
  | (pre, some post) => (pre, '#' :: post)

/-- Split off a trailing `?query` (at the first `?`); the query keeps its
`?`. -/
def splitQuery (l : List Char) : List Char × List Char :=
  match splitAtChar '?' l with
  | (pre, none) => (pre, [])
  | (pre, some post) => (pre, '?' :: post)

/-- Take the authority of a URL: everything up to the first `/`, `?` or `#`;
returns (authority, rest including the delimiter). -/
def splitPathStart : List Char → List Char × List Char
  | [] => ([], [])
  | c :: cs =>
    if c == '/' || c == '?' || c == '#' then ([], c :: cs)
    else
      let (a, r) := splitPathStart cs
      (c :: a, r)

/-- Split a path into its `/`-separated segments. -/
def splitSegs : List Char → List (List Char)
  | [] => [[]]
  | c :: cs =>
    let segs := splitSegs cs
    if c == '/' then [] :: segs
    else
      match segs with
      | s :: rest => (c :: s) :: rest
      | [] => [[c]]

/-- RFC 3986 / WHATWG dot-segment removal over a segment list (`acc` holds
the already-emitted segments in reverse). -/
def rdsAux (acc : List (List Char)) : List (List Char) → List (List Char)
  | [] => acc.reverse
  | ['.'] :: [] => acc.reverse ++ [[]]
  | ['.'] :: rest => rdsAux acc rest
  | ['.', '.'] :: [] => (acc.drop 1).reverse ++ [[]]
  | ['.', '.'] :: rest => rdsAux (acc.drop 1) rest
  | s :: rest => rdsAux (s :: acc) rest

/-- Interleave `/` between path segments. -/
def joinSegs : List (List Char) → List Char
  | [] => []
  | [s] => s
  | s :: rest => s ++ '/' :: joinSegs rest

/-- Normalize an absolute path (starting with `/`) by removing `.` and `..`
segments, as the JS `URL` parser does. -/
def removeDotSegments (p : List Char) : List Char :=
  match p with
  | '/' :: rest => '/' :: joinSegs (rdsAux [] (splitSegs rest))
  | _ => p

/-- Parsed JS `URL` value.  For a non-special scheme the remainder after the
colon is kept verbatim in `opaquePath` (the worker only ever constructs
`http:`/`https:` URLs; an exotic absolute `Location` value round-trips
through `opaquePath` unchanged). -/
structure URLRec where
  protocol : String
  userinfo : String
  hostname : String
  port : String
  pathname : String
  search : String
  hash : String
  opaquePath : Option String := none
deriving DecidableEq, Repr

/-- Model of JS `url.href` / `url.toString()`. -/
def URLRec.href (u : URLRec) : String :=
  match u.opaquePath with
  | some p => u.protocol ++ p
  | none =>
    u.protocol ++ "//" ++ (if u.userinfo = "" then "" else u.userinfo ++ "@") ++
      u.hostname ++ (if u.port = "" then "" else ":" ++ u.port) ++
      u.pathname ++ u.search ++ u.hash

/-- Model of JS `url.origin`. -/
def URLRec.origin (u : URLRec) : String :=
  u.protocol ++ "//" ++ u.hostname ++ (if u.port = "" then "" else ":" ++ u.port)

/-- Model of JS `url.host` (hostname plus non-default port). -/
def URLRec.host (u : URLRec) : String :=
  u.hostname ++ (if u.port = "" then "" else ":" ++ u.port)

/-- The WHATWG "special" schemes together with their default ports. -/
def specialSchemes : List (String × Nat) :=
  [("http:", 80), ("https:", 443), ("ws:", 80), ("wss:", 443), ("ftp:", 21)]

/-- Digits-only string to number. -/
def digitsToNat : List Char → Option Nat
  | [] => some 0
  | c :: cs =>
    if isDigitCh c then
      (digitsToNat cs).map (fun n => (c.toNat - 48) * 10 ^ cs.length + n)
    else none

/-- Validate and canonicalize a port: empty stays empty, digits are read as
a number, a default port for the scheme is elided, anything else (or a port
above 65535) is the `TypeError` the JS `URL` constructor throws. -/
def parsePort (proto : String) (portRaw : Option (List Char)) : Option String :=
  match portRaw with
  | none => some ""
  | some [] => some ""
  | some ds =>
    match digitsToNat ds with
    | none => none
    | some n =>
      if n > 65535 then none
      else if specialSchemes.contains (proto, n) then some ""
      else some (Nat.repr n)

/-- Model of the one-argument JS `URL` constructor.  Simplifications kept
out of the model (no claim depends on them): IPv6 host brackets, forbidden
host code point validation, and the parser's own percent-encoding of URL
components. -/
def parseURL (s : String) : Except String URLRec :=
  match takeScheme s.data with
  | none => .error "Invalid URL"
  | some (sch, rest) =>
    let proto : String := ⟨(sch.map lcChar) ++ [':']⟩
    if (specialSchemes.map (fun p => p.1)).contains proto then
      let rest1 := rest.dropWhile (fun c => c == '/')
      let (auth, tail) := splitPathStart rest1
      let (userinfo, hostport) :=
        match splitLastAt '@' auth with
        | none => ([], auth)
        | some (ui, hp) => (ui, hp)
      let (hostRaw, portRaw) := splitAtChar ':' hostport
      if hostRaw = [] then .error "Invalid URL"
      else
        match parsePort proto portRaw with
        | none => .error "Invalid URL"
        | some portStr =>
          let (beforeHash, hashPart) := splitHash tail
          let (pathPart, queryPart) := splitQuery beforeHash
          .ok {
            protocol := proto
            userinfo := ⟨userinfo⟩
            hostname := ⟨hostRaw.map lcChar⟩
            port := portStr
            pathname := ⟨if pathPart = [] then ['/'] else removeDotSegments pathPart⟩
            search := ⟨queryPart⟩
            hash := ⟨hashPart⟩ }
    else
      .ok { protocol := proto, userinfo := "", hostname := "", port := "",
            pathname := "", search := "", hash := "", opaquePath := some ⟨rest⟩ }

/-- Base directory of a path: everything through the last `/`. -/
def dirOf (p : List Char) : List Char :=
  match splitLastAt '/' p with
  | none => []
  | some (pre, _) => pre ++ ['/']

/-- Model of the two-argument JS `URL` constructor `new URL(input, base)`:
an absolute input stands alone; otherwise the input is resolved against the
base as a protocol-relative, root-relative, query-only, fragment-only or
path-relative reference.  (The WHATWG quirk where an input repeating the
base's special scheme without slashes is treated as relative is not
modelled; the worker never produces such inputs.) -/
def resolveURL (input base : String) : Except String URLRec :=
  match parseURL input with
  | .ok u => .ok u
  | .error _ =>
    match parseURL base with
    | .error e => .error e
    | .ok b =>
      if b.opaquePath.isSome then .error "Invalid URL"
      else
        match input.data with
        | '/' :: '/' :: rest => parseURL (b.protocol ++ ⟨'/' :: '/' :: rest⟩)
        | l =>
          let (beforeHash, hashPart) := splitHash l
          let (pathPart, queryPart) := splitQuery beforeHash
          if pathPart = [] ∧ queryPart = [] ∧ hashPart = [] then
            .ok { b with hash := "" }
          else if pathPart = [] ∧ queryPart = [] then
            .ok { b with hash := ⟨hashPart⟩ }
          else if pathPart = [] then
            .ok { b with search := ⟨queryPart⟩, hash := ⟨hashPart⟩ }
          else
            match pathPart with
            | '/' :: _ =>
              .ok { b with pathname := ⟨removeDotSegments pathPart⟩,
                           search := ⟨queryPart⟩, hash := ⟨hashPart⟩ }
            | _ =>
              .ok { b with pathname := ⟨removeDotSegments (dirOf b.pathname.data ++ pathPart)⟩,
                           search := ⟨queryPart⟩, hash := ⟨hashPart⟩ }

/-- Is `c` one of the two quote characters of the rewrite pattern? -/
def quoteCh (c : Char) : Bool := c == '"' || c == '\''

/-- The negative lookahead `(?!/)` of the rewrite pattern: the remainder
must not begin with a second `/`. -/
def headUnslashed : List Char → Bool
  | '/' :: _ => false
  | _ => true

/-- One global-regex replacement pass of
`((href|src|action)=["'])/(?!/)` → `` $1<protocol>//<host>/ ``
(worker.js lines 134-137): scan left to right; at a match emit the
attribute-name/quote prefix, then `rep` (`protocol` + `//` + `host`), then
the `/`, and resume after the matched text; otherwise copy one character. -/
def rrpAux (rep : List Char) : List Char → List Char
  | 'h' :: 'r' :: 'e' :: 'f' :: '=' :: q :: '/' :: rest =>
    if quoteCh q && headUnslashed rest then
      'h' :: 'r' :: 'e' :: 'f' :: '=' :: q :: (rep ++ '/' :: rrpAux rep rest)
    else 'h' :: rrpAux rep ('r' :: 'e' :: 'f' :: '=' :: q :: '/' :: rest)
  | 's' :: 'r' :: 'c' :: '=' :: q :: '/' :: rest =>
    if quoteCh q && headUnslashed rest then
      's' :: 'r' :: 'c' :: '=' :: q :: (rep ++ '/' :: rrpAux rep rest)
    else 's' :: rrpAux rep ('r' :: 'c' :: '=' :: q :: '/' :: rest)
  | 'a' :: 'c' :: 't' :: 'i' :: 'o' :: 'n' :: '=' :: q :: '/' :: rest =>
    if quoteCh q && headUnslashed rest then
      'a' :: 'c' :: 't' :: 'i' :: 'o' :: 'n' :: '=' :: q :: (rep ++ '/' :: rrpAux rep rest)
    else 'a' :: rrpAux rep ('c' :: 't' :: 'i' :: 'o' :: 'n' :: '=' :: q :: '/' :: rest)
  | c :: cs => c :: rrpAux rep cs
  | [] => []

/-- Does the scan position at the head of `l` match the rewrite pattern
`(href|src|action)=["']/(?!/)`? -/
def headMatchAttr : List Char → Bool
  | 'h' :: 'r' :: 'e' :: 'f' :: '=' :: q :: '/' :: rest => quoteCh q && headUnslashed rest
  | 's' :: 'r' :: 'c' :: '=' :: q :: '/' :: rest => quoteCh q && headUnslashed rest
  | 'a' :: 'c' :: 't' :: 'i' :: 'o' :: 'n' :: '=' :: q :: '/' :: rest => quoteCh q && headUnslashed rest
  | _ => false

/-- Model of `replaceRelativePaths(text, protocol, host, origin)` (worker.js lines
134-137).  `origin` is accepted and, as in the source, never used. -/
def replaceRelativePaths (text protocol host origin : String) : String :=
  ⟨rrpAux (protocol ++ "//" ++ host).data text.data⟩

/-- Decidable equality of `Except` values, so concrete runs of the fallible
pipeline stages can be checked with `decide`. -/
instance {ε α : Type} [DecidableEq ε] [DecidableEq α] : DecidableEq (Except ε α) :=
  fun a b =>
    match a, b with
    | .ok x, .ok y =>
      if h : x = y then .isTrue (by rw [h]) else .isFalse (fun hh => h (Except.ok.inj hh))
    | .error x, .error y =>
      if h : x = y then .isTrue (by rw [h]) else .isFalse (fun hh => h (Except.error.inj hh))
    | .ok _, .error _ => .isFalse Except.noConfusion
    | .error _, .ok _ => .isFalse Except.noConfusion

/-- A JS `Response` as far as the worker observes it: status, status text,
headers and a fully buffered body. -/
structure JsResponse where
  status : Nat
  statusText : String
  headers : HdrList
  body : String
deriving DecidableEq, Repr

/-- The inbound request, pre-parsed the way the runtime hands it to
`handleRequest` (`new URL(request.url)` on line 7 always succeeds for a
runtime-delivered request): `protocol` and `host` are the worker's own
scheme (with colon) and host, `search` is `""` or starts with `?`. -/
structure InRequest where
  protocol : String
  host : String
  pathname : String
  search : String
  method : String
  headers : HdrList
  body : Option String
deriving DecidableEq, Repr

/-- The outbound request the worker passes to `fetch` (worker.js lines
41-46); `redirect: 'manual'` is implicit in the model, since the upstream
response is supplied unfollowed. -/
structure OutReq where
  url : String
  headers : HdrList
  method : String
  body : Option String
deriving DecidableEq, Repr

/-- Model of `url.pathname.replace("/", "")` (worker.js line 19): a string-pattern
`replace` removes only the first occurrence of `/`. -/
def replaceFirstSlash : List Char → List Char
  | [] => []
  | '/' :: rest => rest
  | c :: rest => c :: replaceFirstSlash rest

/-- The outbound header set built at worker.js lines 28-38: filter out
`cf-*` and `Host`, re-set `Cookie` when the inbound request has one, then
set `Host` to the target's hostname. -/
def buildOutboundHeaders (reqHeaders : HdrList) (hostname : String) : HdrList :=
  let newHeaders := filterHeaders reqHeaders keepHeader
  let newHeaders :=
    if hhas reqHeaders "cookie" then
      hset newHeaders "Cookie" ((hget reqHeaders "cookie").getD "")
    else newHeaders
  hset newHeaders "Host" hostname

/-- Model of `handleRedirect(response, request, actualUrlStr)` (worker.js lines
95-115).  The unused `request` parameter of the source is dropped.  The
object literal `{...response.headers, 'Location': modifiedLocation}`
spreads a `Headers` instance, which has no enumerable own properties, so
the literal contributes only the `Location` entry.  `headers.get` returns
`null` for a missing name and `new URL(null, base)` stringifies it to
`"null"`. -/
def handleRedirect (response : JsResponse) (actualUrlStr : String) :
    Except String JsResponse :=
  match resolveURL ((hget response.headers "location").getD "null") actualUrlStr with
  | .error e => .error e
  | .ok location =>
    let modifiedLocation := "/" ++ encodeURIComponent location.href
    let redirectHeaders : HdrList := [("location", modifiedLocation)]
    let redirectHeaders :=
      if hhas response.headers "Set-Cookie" then
        hset redirectHeaders "Set-Cookie" ((hget response.headers "Set-Cookie").getD "")
      else redirectHeaders
    .ok { status := response.status, statusText := response.statusText,
          headers := redirectHeaders, body := response.body }

/-- Model of `handleHtmlContent(response, protocol, host, actualUrlStr)` (worker.js
lines 118-131): buffer the body and rewrite root-relative paths.  The
source re-parses `actualUrlStr` for its origin; the already-parsed target
is passed here (that parse succeeded earlier on the same string).  The
`Set-Cookie` block of the source is comment-only and contributes nothing. -/
def handleHtmlContent (response : JsResponse) (protocol host : String)
    (actualUrl : URLRec) : String :=
  replaceRelativePaths response.body protocol host actualUrl.origin

/-- JSON string escaping as `JSON.stringify` performs it on the error
message. -/
def jsonEscapeChar (c : Char) : List Char :=
  if c == '"' then ['\\', '"']
  else if c == '\\' then ['\\', '\\']
  else if c == '\n' then ['\\', 'n']
  else if c == '\t' then ['\\', 't']
  else if c == '\r' then ['\\', 'r']
  else if c.toNat == 8 then ['\\', 'b']
  else if c.toNat == 12 then ['\\', 'f']
  else if c.toNat < 32 then
    ['\\', 'u', '0', '0', lcChar (hexUpper (c.toNat / 16)), lcChar (hexUpper (c.toNat % 16))]
  else [c]

/-- Model of `JSON.stringify` applied to an object with the single key `error` holding `msg`. -/
def jsonStringifyError (msg : String) : String :=
  "\x7b\"error\":\"" ++ ⟨(msg.data.map jsonEscapeChar).flatten⟩ ++ "\"\x7d"

/-- Model of `jsonResponse(data, status)` (worker.js lines 140-147), with the body
already stringified.  A constructed `Response` has status text `""`. -/
def jsonResponse (body : String) (status : Nat) : JsResponse :=
  { status := status, statusText := "",
    headers := [("content-type", "application/json; charset=utf-8")],
    body := body }

/-- Model of `setNoCacheHeaders(headers)` (worker.js lines 155-157). -/
def setNoCacheHeaders (headers : HdrList) : HdrList :=
  hset headers "Cache-Control" "no-store"

/-- Model of `setCorsHeaders(headers)` (worker.js lines 160-164). -/
def setCorsHeaders (headers : HdrList) : HdrList :=
  hset (hset (hset headers "Access-Control-Allow-Origin" "*")
      "Access-Control-Allow-Methods" "GET, POST, PUT, DELETE")
    "Access-Control-Allow-Headers" "*"

/-- Model of `getRootHtml()` (worker.js lines 167-252): the static landing-page
markup.  Only the status and content type of the root response are
constrained by any claim, so the 80-line template is abbreviated to its
head; no theorem below inspects this text. -/
def getRootHtml : String :=
  "<!DOCTYPE html>\n<html lang=\"zh-CN\">\n<head><meta charset=\"UTF-8\"><title>Proxy Everything</title></head>\n<body></body>\n</html>"

/-- The statuses of worker.js line 52. -/
def redirectStatuses : List Nat := [301, 302, 303, 307, 308]

/-- The body of `handleRequest`'s `try` block (worker.js lines 6-80).  The
upstream response `up` stands for what `fetch` returns; the second
component records every outbound request issued.  A `.error` result is the
exception reaching the `catch`. -/
def handleRequestCore (request : InRequest) (up : JsResponse) :
    Except String JsResponse × List OutReq :=
  if request.pathname = "/" then
    (.ok { status := 200, statusText := "",
           headers := [("content-type", "text/html; charset=utf-8")],
           body := getRootHtml }, [])
  else
    match decodeURIComponent ⟨replaceFirstSlash request.pathname.data⟩ with
    | .error e => (.error e, [])
    | .ok decoded =>
      let actualUrlStr := ensureProtocol decoded request.protocol ++ request.search
      match parseURL actualUrlStr with
      | .error e => (.error e, [])
      | .ok targetUrl =>
        let outHeaders := buildOutboundHeaders request.headers targetUrl.hostname
        let outReq : OutReq := { url := actualUrlStr, headers := outHeaders,
                                 method := request.method, body := request.body }
        let result : Except String JsResponse :=
          if redirectStatuses.contains up.status then
            handleRedirect up actualUrlStr
          else
            let responseBody :=
              match hget up.headers "Content-Type" with
              | some ct =>
                if strHasSub ct "text/html" then
                  handleHtmlContent up request.protocol request.host targetUrl
                else up.body
              | none => up.body
            let modHeaders := up.headers
            let modHeaders :=
              if hhas up.headers "Set-Cookie" then
                hset modHeaders "Set-Cookie" ((hget up.headers "Set-Cookie").getD "")
              else modHeaders
            let modHeaders := setCorsHeaders (setNoCacheHeaders modHeaders)
            .ok { status := up.status, statusText := up.statusText,
                  headers := modHeaders, body := responseBody }
        (result, [outReq])

/-- Model of `handleRequest` (worker.js lines 5-87): the `try` body plus the `catch`
that turns any thrown error into a 500 JSON response. -/
def handleRequest (request : InRequest) (up : JsResponse) : JsResponse × List OutReq :=
  (match (handleRequestCore request up).1 with
   | .ok r => r
   | .error e => jsonResponse (jsonStringifyError e) 500,
   (handleRequestCore request up).2)

end Worker

namespace Worker

/-- C6 helper: a list starts with itself followed by anything. -/
theorem listStartsWith_append (a b : List Char) : listStartsWith (a ++ b) a = true := by
  induction a with
  | nil => cases b <;> rfl
  | cons c cs ih => simp [listStartsWith, ih]

/-- Appending produces a string that ends with the appended part. -/
theorem strEnds_append (a b : String) : strEnds (a ++ b) b = true := by
  cases a with
  | mk la =>
    cases b with
    | mk lb =>
      show listEndsWith (la ++ lb) lb = true
      unfold listEndsWith
      rw [List.reverse_append]
      exact listStartsWith_append lb.reverse la.reverse

/-- C6: `ensureProtocol` leaves a target string unchanged when it already
starts with `http://` or `https://`, and otherwise prefixes it with the
inbound request's protocol followed by `//`, so that the result starts with
the inbound scheme. -/
theorem C6_ensureProtocol (url proto : String) :
    (strStarts url "http://" = true ∨ strStarts url "https://" = true →
      ensureProtocol url proto = url) ∧
    (strStarts url "http://" = false → strStarts url "https://" = false →
      ensureProtocol url proto = proto ++ "//" ++ url ∧
      strStarts (ensureProtocol url proto) (proto ++ "//") = true) := by
  constructor
  · intro h
    unfold ensureProtocol
    rcases h with h | h <;> simp [h]
  · intro h1 h2
    have he : ensureProtocol url proto = proto ++ "//" ++ url := by
      unfold ensureProtocol
      rw [h1, h2]
      simp
    refine ⟨he, ?_⟩
    rw [he]
    show listStartsWith ((proto ++ "//") ++ url).data (proto ++ "//").data = true
    have hd : ((proto ++ "//") ++ url).data = (proto ++ "//").data ++ url.data := by
      cases proto; rfl
    rw [hd]
    exact listStartsWith_append _ _

/-- Looking up the name just set returns the value just set. -/
theorem hget_hset_eq (hs : HdrList) (n v m : String) (h : lcStr m = lcStr n) :
    hget (hset hs n v) m = some v := by
  rw [hget, hset, h]
  induction hs with
  | nil => simp
  | cons a t ih =>
    by_cases hc : a.1 == lcStr n
    · simpa [List.filter_cons, hc] using ih
    · simpa [List.filter_cons, hc] using ih

/-- Setting one name does not change the lookup of a different name. -/
theorem hget_hset_ne (hs : HdrList) (n v m : String) (h : ¬ lcStr m = lcStr n) :
    hget (hset hs n v) m = hget hs m := by
  rw [hget, hset, hget]
  have hne : ¬ lcStr n = lcStr m := fun hh => h hh.symm
  induction hs with
  | nil => simp [hne]
  | cons a t ih =>
    by_cases hc : a.1 == lcStr n
    · have ha : (a.1 == lcStr m) = false := by
        have han : a.1 = lcStr n := by simpa using hc
        simp [han, hne]
      simpa [List.filter_cons, hc, List.find?_cons, ha] using ih
    · by_cases hm : a.1 == lcStr m
      · simp [List.filter_cons, hc, List.find?_cons, hm]
      · simpa [List.filter_cons, hc, List.find?_cons, hm] using ih

/-- The second projection of the handler is the second projection of its
`try`-body. -/
theorem handleRequest_snd (request : InRequest) (up : JsResponse) :
    (handleRequest request up).2 = (handleRequestCore request up).2 := rfl

/-- Appending the empty string is the identity. -/
theorem strAppendEmpty (s : String) : s ++ "" = s := by
  cases s with
  | mk l => exact congrArg String.mk (List.append_nil l)

/-- Shape of the proxied pipeline when decoding and target parsing succeed:
exactly one outbound request is issued, carrying the normalized target URL
with the inbound query appended, the filtered header set with `Host` set to
the target's hostname, and the inbound method and body. -/
theorem core_snd (request : InRequest) (up : JsResponse)
    (hroot : ¬ request.pathname = "/")
    (decoded : String)
    (hdec : decodeURIComponent ⟨replaceFirstSlash request.pathname.data⟩ = .ok decoded)
    (targetUrl : URLRec)
    (hparse : parseURL (ensureProtocol decoded request.protocol ++ request.search) =
      .ok targetUrl) :
    (handleRequestCore request up).2 =
      [{ url := ensureProtocol decoded request.protocol ++ request.search,
         headers := buildOutboundHeaders request.headers targetUrl.hostname,
         method := request.method, body := request.body }] := by
  unfold handleRequestCore
  simp only [hroot, hdec, hparse, if_neg, if_false]

/-- Shape of the `try`-body result in the redirect branch. -/
theorem core_redirect (request : InRequest) (up : JsResponse)
    (hroot : ¬ request.pathname = "/")
    (decoded : String)
    (hdec : decodeURIComponent ⟨replaceFirstSlash request.pathname.data⟩ = .ok decoded)
    (targetUrl : URLRec)
    (hparse : parseURL (ensureProtocol decoded request.protocol ++ request.search) =
      .ok targetUrl)
    (hst : redirectStatuses.contains up.status = true) :
    (handleRequestCore request up).1 =
      handleRedirect up (ensureProtocol decoded request.protocol ++ request.search) := by
  unfold handleRequestCore
  simp only [hroot, hdec, hparse, hst, if_neg, if_false, if_true]

/-- Shape of the `try`-body result in the non-redirect branch. -/
theorem core_ok_nonredirect (request : InRequest) (up : JsResponse)
    (hroot : ¬ request.pathname = "/")
    (decoded : String)
    (hdec : decodeURIComponent ⟨replaceFirstSlash request.pathname.data⟩ = .ok decoded)
    (targetUrl : URLRec)
    (hparse : parseURL (ensureProtocol decoded request.protocol ++ request.search) =
      .ok targetUrl)
    (hst : redirectStatuses.contains up.status = false) :
    (handleRequestCore request up).1 =
      .ok { status := up.status, statusText := up.statusText,
            headers := setCorsHeaders (setNoCacheHeaders
              (if hhas up.headers "Set-Cookie" then
                hset up.headers "Set-Cookie" ((hget up.headers "Set-Cookie").getD "")
              else up.headers)),
            body :=
              match hget up.headers "Content-Type" with
              | some ct =>
                if strHasSub ct "text/html" then
                  handleHtmlContent up request.protocol request.host targetUrl
                else up.body
              | none => up.body } := by
  unfold handleRequestCore
  simp only [hroot, hdec, hparse, hst, if_neg, if_false, if_true, Bool.false_eq_true]

/-- C9: for every proxied (non-root) request whose pipeline reaches the
outbound fetch, the `Host` header of the (unique) outbound request equals
the hostname component of the normalized target URL. -/
theorem C9_outbound_host (request : InRequest) (up : JsResponse)
    (hroot : ¬ request.pathname = "/")
    (decoded : String)
    (hdec : decodeURIComponent ⟨replaceFirstSlash request.pathname.data⟩ = .ok decoded)
    (targetUrl : URLRec)
    (hparse : parseURL (ensureProtocol decoded request.protocol ++ request.search) =
      .ok targetUrl) :
    (handleRequest request up).2.map (fun o => hget o.headers "Host") =
      [some targetUrl.hostname] := by
  rw [handleRequest_snd, core_snd request up hroot decoded hdec targetUrl hparse]
  rw [List.map_cons, List.map_nil]
  rw [buildOutboundHeaders]
  rw [hget_hset_eq _ _ _ _ rfl]

/-- C9 witness: concrete proxied request; the outbound `Host` is the target
hostname `example.com`, not the proxy host. -/
theorem C9_outbound_host_witness :
    (handleRequest
        { protocol := "https:", host := "proxy.example",
          pathname := "/https%3A%2F%2Fexample.com%2Fa", search := "",
          method := "GET", headers := [("host", "proxy.example")], body := none }
        { status := 200, statusText := "OK", headers := [], body := "" }).2.map
      (fun o => hget o.headers "Host") = [some "example.com"] := by
  have h := C9_outbound_host
    { protocol := "https:", host := "proxy.example",
      pathname := "/https%3A%2F%2Fexample.com%2Fa", search := "",
      method := "GET", headers := [("host", "proxy.example")], body := none }
    { status := 200, statusText := "OK", headers := [], body := "" }
    (by decide) "https://example.com/a" (by decide)
    { protocol := "https:", userinfo := "", hostname := "example.com", port := "",
      pathname := "/a", search := "", hash := "", opaquePath := none }
    (by decide)
  exact h

/-- C7: the URL of the (unique) outbound fetch is the normalized target with
the inbound query string appended exactly once: it equals target ++ search;
when the query is empty there is no query suffix at all, and when the query
is `?Q` the fetched URL ends with `?Q`. -/
theorem C7_query_append (request : InRequest) (up : JsResponse)
    (hroot : ¬ request.pathname = "/")
    (decoded : String)
    (hdec : decodeURIComponent ⟨replaceFirstSlash request.pathname.data⟩ = .ok decoded)
    (targetUrl : URLRec)
    (hparse : parseURL (ensureProtocol decoded request.protocol ++ request.search) =
      .ok targetUrl) :
    (handleRequest request up).2.map OutReq.url =
      [ensureProtocol decoded request.protocol ++ request.search] ∧
    (request.search = "" →
      (handleRequest request up).2.map OutReq.url =
        [ensureProtocol decoded request.protocol]) ∧
    (∀ Q : String, request.search = "?" ++ Q →
      strEnds (ensureProtocol decoded request.protocol ++ request.search)
        ("?" ++ Q) = true) := by
  have hmap : (handleRequest request up).2.map OutReq.url =
      [ensureProtocol decoded request.protocol ++ request.search] := by
    rw [handleRequest_snd, core_snd request up hroot decoded hdec targetUrl hparse]
    rfl
  refine ⟨hmap, ?_, ?_⟩
  · intro hq
    rw [hmap, hq, strAppendEmpty]
  · intro Q hq
    rw [hq]
    exact strEnds_append _ _

/-- C7 witness: concrete request with query `?q=1` against a target that
keeps its own path; the fetched URL ends with `?q=1` and is appended only
once. -/
theorem C7_query_append_witness :
    (handleRequest
        { protocol := "https:", host := "proxy.example",
          pathname := "/example.org%2Fsearch", search := "?q=1",
          method := "GET", headers := [], body := none }
        { status := 200, statusText := "OK", headers := [], body := "" }).2.map OutReq.url =
      ["https://example.org/search?q=1"] ∧
    strEnds "https://example.org/search?q=1" "?q=1" = true := by
  have h := C7_query_append
    { protocol := "https:", host := "proxy.example",
      pathname := "/example.org%2Fsearch", search := "?q=1",
      method := "GET", headers := [], body := none }
    { status := 200, statusText := "OK", headers := [], body := "" }
    (by decide) "example.org/search" (by decide)
    { protocol := "https:", userinfo := "", hostname := "example.org", port := "",
      pathname := "/search", search := "?q=1", hash := "", opaquePath := none }
    (by decide)
  refine ⟨h.1.trans (by decide), ?_⟩
  have h3 := h.2.2 "q=1" rfl
  exact (by decide : strEnds ("https://example.org/search" ++ "?q=1") "?q=1" = strEnds "https://example.org/search?q=1" "?q=1") ▸ h3

/-- After `setNoCacheHeaders` then `setCorsHeaders`, the CORS origin and
cache headers read back as set, whatever the header set started as. -/
theorem cors_cache_lookup (M : HdrList) :
    hget (setCorsHeaders (setNoCacheHeaders M)) "Access-Control-Allow-Origin" = some "*" ∧
    hget (setCorsHeaders (setNoCacheHeaders M)) "Cache-Control" = some "no-store" := by
  unfold setCorsHeaders setNoCacheHeaders
  constructor
  · rw [hget_hset_ne _ _ _ _ (by decide), hget_hset_ne _ _ _ _ (by decide)]
    exact hget_hset_eq _ _ _ _ rfl
  · rw [hget_hset_ne _ _ _ _ (by decide), hget_hset_ne _ _ _ _ (by decide),
      hget_hset_ne _ _ _ _ (by decide)]
    exact hget_hset_eq _ _ _ _ rfl

/-- C4 counterexample: the claim quantifies over every response the handler
returns, but an error response (here: the 500 produced by the malformed
path `/%`) carries neither `Access-Control-Allow-Origin` nor
`Cache-Control` — `jsonResponse` sets only `Content-Type` and the `catch`
branch never calls `setCorsHeaders`/`setNoCacheHeaders`. -/
theorem C4_counterexample :
    (handleRequest
        { protocol := "https:", host := "proxy.example", pathname := "/%",
          search := "", method := "GET", headers := [], body := none }
        { status := 200, statusText := "OK", headers := [], body := "" }).1.status = 500 ∧
    hget (handleRequest
        { protocol := "https:", host := "proxy.example", pathname := "/%",
          search := "", method := "GET", headers := [], body := none }
        { status := 200, statusText := "OK", headers := [], body := "" }).1.headers
      "Access-Control-Allow-Origin" = none ∧
    hget (handleRequest
        { protocol := "https:", host := "proxy.example", pathname := "/%",
          search := "", method := "GET", headers := [], body := none }
        { status := 200, statusText := "OK", headers := [], body := "" }).1.headers
      "Cache-Control" = none := by
  decide

/-- C4 (amended): every successfully proxied non-redirect response carries
`Access-Control-Allow-Origin: *` and `Cache-Control: no-store`; the root
landing page, redirect responses and error responses are returned without
passing through `setNoCacheHeaders`/`setCorsHeaders`. -/
theorem C4_amended_cors_nocache (request : InRequest) (up : JsResponse)
    (hroot : ¬ request.pathname = "/")
    (decoded : String)
    (hdec : decodeURIComponent ⟨replaceFirstSlash request.pathname.data⟩ = .ok decoded)
    (targetUrl : URLRec)
    (hparse : parseURL (ensureProtocol decoded request.protocol ++ request.search) =
      .ok targetUrl)
    (hst : redirectStatuses.contains up.status = false) :
    hget (handleRequest request up).1.headers "Access-Control-Allow-Origin" = some "*" ∧
    hget (handleRequest request up).1.headers "Cache-Control" = some "no-store" := by
  unfold handleRequest
  rw [core_ok_nonredirect request up hroot decoded hdec targetUrl hparse hst]
  exact cors_cache_lookup _

/-- C4 amended witness: a plain 200 upstream response is returned with both
headers present. -/
theorem C4_amended_cors_nocache_witness :
    hget (handleRequest
        { protocol := "https:", host := "proxy.example",
          pathname := "/example.org", search := "", method := "GET",
          headers := [], body := none }
        { status := 200, statusText := "OK",
          headers := [("content-type", "text/plain")], body := "hi" }).1.headers
      "Access-Control-Allow-Origin" = some "*" ∧
    hget (handleRequest
        { protocol := "https:", host := "proxy.example",
          pathname := "/example.org", search := "", method := "GET",
          headers := [], body := none }
        { status := 200, statusText := "OK",
          headers := [("content-type", "text/plain")], body := "hi" }).1.headers
      "Cache-Control" = some "no-store" :=
  C4_amended_cors_nocache
    { protocol := "https:", host := "proxy.example",
      pathname := "/example.org", search := "", method := "GET",
      headers := [], body := none }
    { status := 200, statusText := "OK",
      headers := [("content-type", "text/plain")], body := "hi" }
    (by decide) "example.org" (by decide)
    { protocol := "https:", userinfo := "", hostname := "example.org", port := "",
      pathname := "/", search := "", hash := "", opaquePath := none }
    (by decide) (by decide)

/-- C8: header filtering is idempotent; after filtering, `Host` (found by a
case-insensitive lookup) and every `cf-`-prefixed name are absent; and
`Cookie` is present in the final outbound header set iff it was present
inbound. -/
theorem C8_header_filtering (hs : HdrList) (hostname : String) :
    filterHeaders (filterHeaders hs keepHeader) keepHeader = filterHeaders hs keepHeader ∧
    hhas (filterHeaders hs keepHeader) "Host" = false ∧
    (∀ p ∈ filterHeaders hs keepHeader, strStarts p.1 "cf-" = false) ∧
    hhas (buildOutboundHeaders hs hostname) "Cookie" = hhas hs "Cookie" := by
  refine ⟨?_, ?_, ?_, ?_⟩
  · induction hs with
    | nil => rfl
    | cons a t ih =>
      by_cases hk : keepHeader a.1 <;>
        simp [filterHeaders, List.filter_cons, hk] at ih ⊢ <;> exact ih
  · have hnone : (filterHeaders hs keepHeader).find? (fun p => p.1 == lcStr "Host") = none := by
      rw [List.find?_eq_none]
      intro x hx hbeq
      have hk : keepHeader x.1 = true := by
        have := (List.mem_filter.mp hx).2
        simpa using this
      have hx1 : x.1 = "host" := by
        have h1 : x.1 = lcStr "Host" := by simpa using hbeq
        simpa using h1
      rw [hx1] at hk
      exact absurd hk (by decide)
    simp [hhas, hget, hnone]
  · intro p hp
    have hk : keepHeader p.1 = true := by
      have := (List.mem_filter.mp hp).2
      simpa using this
    rw [keepHeader, Bool.and_eq_true] at hk
    simpa using hk.1
  · by_cases hc : hhas hs "cookie"
    · have hc' : hhas hs "Cookie" = true := hc
      rw [hc']
      rw [buildOutboundHeaders]
      rw [if_pos hc]
      rw [hhas, hget_hset_ne _ _ _ _ (by decide), hget_hset_eq _ _ _ _ rfl]
      rfl
    · have hc' : hhas hs "Cookie" = false := by
        simpa using hc
      rw [hc']
      rw [buildOutboundHeaders]
      rw [if_neg hc]
      rw [hhas, hget_hset_ne _ _ _ _ (by decide)]
      have hnone : (filterHeaders hs keepHeader).find? (fun p => p.1 == lcStr "Cookie") = none := by
        rw [List.find?_eq_none]
        intro x hx hbeq
        have hmem : x ∈ hs := (List.mem_filter.mp hx).1
        have hsome : (hs.find? (fun p => p.1 == lcStr "cookie")).isSome = true := by
          rw [List.find?_isSome]
          exact ⟨x, hmem, by simpa using hbeq⟩
        have : hhas hs "cookie" = true := by
          rw [hhas, hget, Option.isSome_map']
          exact hsome
        exact hc (by simpa using this)
      simp [hget, hnone]

/-- C8 witness: a concrete header set with a `cf-` header, a `host` header
and a cookie. -/
theorem C8_header_filtering_witness :
    hhas (filterHeaders [("cf-ray", "x"), ("host", "p"), ("cookie", "a=1"), ("accept", "*/*")]
        keepHeader) "Host" = false ∧
    hhas (buildOutboundHeaders [("cf-ray", "x"), ("host", "p"), ("cookie", "a=1"), ("accept", "*/*")]
        "example.com") "Cookie" = true := by
  have h := C8_header_filtering
    [("cf-ray", "x"), ("host", "p"), ("cookie", "a=1"), ("accept", "*/*")] "example.com"
  refine ⟨h.2.1, ?_⟩
  rw [h.2.2.2]
  decide

/-- Looking up `Location` in the concrete redirect header list. -/
theorem hget_location_single (L : String) :
    hget [("location", L)] "Location" = some L := by
  have hb : ("location" == lcStr "Location") = true := by decide
  simp [hget, List.find?_cons, hb]

/-- C1: for every upstream response with a redirect status (301, 302, 303,
307 or 308) carrying a `Location` header, the response returned to the
client keeps the upstream status and status text unchanged and carries a
`Location` equal to `/` followed by the percent-encoding of the upstream
`Location` value resolved against the target URL that was actually
fetched. -/
theorem C1_redirect_rewrite (request : InRequest) (up : JsResponse)
    (hroot : ¬ request.pathname = "/")
    (decoded : String)
    (hdec : decodeURIComponent ⟨replaceFirstSlash request.pathname.data⟩ = .ok decoded)
    (targetUrl : URLRec)
    (hparse : parseURL (ensureProtocol decoded request.protocol ++ request.search) =
      .ok targetUrl)
    (hst : redirectStatuses.contains up.status = true)
    (locStr : String) (hloc : hget up.headers "location" = some locStr)
    (loc : URLRec)
    (hres : resolveURL locStr (ensureProtocol decoded request.protocol ++ request.search) =
      .ok loc) :
    (handleRequest request up).1.status = up.status ∧
    (handleRequest request up).1.statusText = up.statusText ∧
    hget (handleRequest request up).1.headers "Location" =
      some ("/" ++ encodeURIComponent loc.href) := by
  unfold handleRequest
  rw [core_redirect request up hroot decoded hdec targetUrl hparse hst]
  unfold handleRedirect
  rw [hloc]
  simp only [Option.getD_some]
  rw [hres]
  refine ⟨rfl, rfl, ?_⟩
  show hget (if hhas up.headers "Set-Cookie" then
      hset [("location", "/" ++ encodeURIComponent loc.href)] "Set-Cookie"
        ((hget up.headers "Set-Cookie").getD "")
    else [("location", "/" ++ encodeURIComponent loc.href)]) "Location" =
    some ("/" ++ encodeURIComponent loc.href)
  by_cases hsc : hhas up.headers "Set-Cookie"
  · rw [if_pos hsc, hget_hset_ne _ _ _ _ (by decide)]
    exact hget_location_single _
  · rw [if_neg hsc]
    exact hget_location_single _

/-- C1 witness: the spec's own example — upstream 302 with `Location:
/login` fetched from `https://example.com/a/b` is rewritten to
`/https%3A%2F%2Fexample.com%2Flogin`, status and status text preserved. -/
theorem C1_redirect_rewrite_witness :
    (handleRequest
        { protocol := "https:", host := "proxy.example",
          pathname := "/https%3A%2F%2Fexample.com%2Fa%2Fb", search := "",
          method := "GET", headers := [], body := none }
        { status := 302, statusText := "Found",
          headers := [("location", "/login"), ("server", "nginx")], body := "" }).1.status =
      302 ∧
    (handleRequest
        { protocol := "https:", host := "proxy.example",
          pathname := "/https%3A%2F%2Fexample.com%2Fa%2Fb", search := "",
          method := "GET", headers := [], body := none }
        { status := 302, statusText := "Found",
          headers := [("location", "/login"), ("server", "nginx")], body := "" }).1.statusText =
      "Found" ∧
    hget (handleRequest
        { protocol := "https:", host := "proxy.example",
          pathname := "/https%3A%2F%2Fexample.com%2Fa%2Fb", search := "",
          method := "GET", headers := [], body := none }
        { status := 302, statusText := "Found",
          headers := [("location", "/login"), ("server", "nginx")], body := "" }).1.headers
      "Location" = some "/https%3A%2F%2Fexample.com%2Flogin" := by
  have h := C1_redirect_rewrite
    { protocol := "https:", host := "proxy.example",
      pathname := "/https%3A%2F%2Fexample.com%2Fa%2Fb", search := "",
      method := "GET", headers := [], body := none }
    { status := 302, statusText := "Found",
      headers := [("location", "/login"), ("server", "nginx")], body := "" }
    (by decide) "https://example.com/a/b" (by decide)
    { protocol := "https:", userinfo := "", hostname := "example.com", port := "",
      pathname := "/a/b", search := "", hash := "", opaquePath := none }
    (by decide) (by decide) "/login" (by decide)
    { protocol := "https:", userinfo := "", hostname := "example.com", port := "",
      pathname := "/login", search := "", hash := "", opaquePath := none }
    (by decide)
  exact ⟨h.1, h.2.1, h.2.2.trans (by decide)⟩

/-- C10: for a redirect response, the headers returned to the client are
exactly the rewritten `Location` entry, plus the upstream `Set-Cookie` when
present; every other upstream header is dropped, because spreading the
upstream `Headers` object into an object literal contributes no entries
(a `Headers` instance has no enumerable own properties). -/
theorem C10_redirect_header_set (request : InRequest) (up : JsResponse)
    (hroot : ¬ request.pathname = "/")
    (decoded : String)
    (hdec : decodeURIComponent ⟨replaceFirstSlash request.pathname.data⟩ = .ok decoded)
    (targetUrl : URLRec)
    (hparse : parseURL (ensureProtocol decoded request.protocol ++ request.search) =
      .ok targetUrl)
    (hst : redirectStatuses.contains up.status = true)
    (loc : URLRec)
    (hres : resolveURL ((hget up.headers "location").getD "null")
        (ensureProtocol decoded request.protocol ++ request.search) = .ok loc) :
    (hhas up.headers "Set-Cookie" = false →
      (handleRequest request up).1.headers =
        [("location", "/" ++ encodeURIComponent loc.href)]) ∧
    (∀ v, hget up.headers "Set-Cookie" = some v →
      (handleRequest request up).1.headers =
        [("location", "/" ++ encodeURIComponent loc.href), ("set-cookie", v)]) := by
  unfold handleRequest
  rw [core_redirect request up hroot decoded hdec targetUrl hparse hst]
  unfold handleRedirect
  rw [hres]
  constructor
  · intro hsc
    show (if hhas up.headers "Set-Cookie" then
        hset [("location", "/" ++ encodeURIComponent loc.href)] "Set-Cookie"
          ((hget up.headers "Set-Cookie").getD "")
      else [("location", "/" ++ encodeURIComponent loc.href)]) =
      [("location", "/" ++ encodeURIComponent loc.href)]
    rw [hsc]
    simp
  · intro v hv
    have hsc : hhas up.headers "Set-Cookie" = true := by
      rw [hhas, hv]
      rfl
    show (if hhas up.headers "Set-Cookie" then
        hset [("location", "/" ++ encodeURIComponent loc.href)] "Set-Cookie"
          ((hget up.headers "Set-Cookie").getD "")
      else [("location", "/" ++ encodeURIComponent loc.href)]) =
      [("location", "/" ++ encodeURIComponent loc.href), ("set-cookie", v)]
    rw [hsc, if_pos rfl, hv]
    have hb : (("location" : String) == lcStr "Set-Cookie") = false := by decide
    simp [hset, List.filter_cons, hb]
    decide

/-- C10 witness: an upstream 301 with extra headers and a `Set-Cookie`; the
returned header set is exactly `location` plus `set-cookie`. -/
theorem C10_redirect_header_set_witness :
    (handleRequest
        { protocol := "https:", host := "proxy.example",
          pathname := "/https%3A%2F%2Fexample.com%2Fa", search := "",
          method := "GET", headers := [], body := none }
        { status := 301, statusText := "Moved Permanently",
          headers := [("location", "https://other.example/x"), ("server", "nginx"),
                      ("set-cookie", "sid=9")],
          body := "" }).1.headers =
      [("location", "/https%3A%2F%2Fother.example%2Fx"), ("set-cookie", "sid=9")] := by
  have h := (C10_redirect_header_set
    { protocol := "https:", host := "proxy.example",
      pathname := "/https%3A%2F%2Fexample.com%2Fa", search := "",
      method := "GET", headers := [], body := none }
    { status := 301, statusText := "Moved Permanently",
      headers := [("location", "https://other.example/x"), ("server", "nginx"),
                  ("set-cookie", "sid=9")],
      body := "" }
    (by decide) "https://example.com/a" (by decide)
    { protocol := "https:", userinfo := "", hostname := "example.com", port := "",
      pathname := "/a", search := "", hash := "", opaquePath := none }
    (by decide) (by decide)
    { protocol := "https:", userinfo := "", hostname := "other.example", port := "",
      pathname := "/x", search := "", hash := "", opaquePath := none }
    (by decide)).2 "sid=9" (by decide)
  exact h.trans (by decide)

set_option maxHeartbeats 2000000 in
/-- A matching scan position is rewritten: attribute name and quote are
kept, the `/` is replaced by `rep ++ "/"`, and scanning resumes after the
match. -/
theorem rrpAux_match (rep : List Char) (attr : List Char) (q : Char) (rest : List Char)
    (hattr : attr = ['h', 'r', 'e', 'f'] ∨ attr = ['s', 'r', 'c'] ∨
      attr = ['a', 'c', 't', 'i', 'o', 'n'])
    (hq : quoteCh q = true) (hr : headUnslashed rest = true) :
    rrpAux rep (attr ++ '=' :: q :: '/' :: rest) =
      attr ++ '=' :: q :: (rep ++ '/' :: rrpAux rep rest) := by
  rcases hattr with h | h | h <;> subst h <;> simp [rrpAux, hq, hr]

set_option maxHeartbeats 4000000 in
/-- A non-matching scan position is copied verbatim and scanning moves one
character forward. -/
theorem rrpAux_nomatch (rep : List Char) (c : Char) (cs : List Char)
    (h : headMatchAttr (c :: cs) = false) :
    rrpAux rep (c :: cs) = c :: rrpAux rep cs := by
  rw [rrpAux.eq_def]
  split
  · next x q rest heq =>
      obtain ⟨hc, hcs⟩ := List.cons.inj heq
      subst hc; subst hcs
      simp only [headMatchAttr] at h
      simp [h]
  · next x q rest heq =>
      obtain ⟨hc, hcs⟩ := List.cons.inj heq
      subst hc; subst hcs
      simp only [headMatchAttr] at h
      simp [h]
  · next x q rest heq =>
      obtain ⟨hc, hcs⟩ := List.cons.inj heq
      subst hc; subst hcs
      simp only [headMatchAttr] at h
      simp [h]
  · next x c2 cs2 h1 h2 h3 heq =>
      obtain ⟨hc, hcs⟩ := List.cons.inj heq
      subst hc; subst hcs
      rfl
  · next x heq => exact List.noConfusion heq

/-- A text with no matching scan position anywhere is left byte-for-byte
unchanged. -/
theorem rrpAux_id (rep : List Char) (t : List Char)
    (h : ∀ i : Nat, headMatchAttr (t.drop i) = false) :
    rrpAux rep t = t := by
  induction t with
  | nil => rfl
  | cons c cs ih =>
    have h0 : headMatchAttr (c :: cs) = false := by simpa using h 0
    rw [rrpAux_nomatch rep c cs h0]
    have hs : ∀ i : Nat, headMatchAttr (cs.drop i) = false := by
      intro i
      simpa using h (i + 1)
    rw [ih hs]

/-- A scan position whose quote is followed by `//` (a protocol-relative
reference) is not a match. -/
theorem headMatchAttr_protocol_relative (attr : List Char) (q : Char) (rest : List Char)
    (hattr : attr = ['h', 'r', 'e', 'f'] ∨ attr = ['s', 'r', 'c'] ∨
      attr = ['a', 'c', 't', 'i', 'o', 'n']) :
    headMatchAttr (attr ++ '=' :: q :: '/' :: '/' :: rest) = false := by
  rcases hattr with h | h | h <;> subst h <;> simp [headMatchAttr, headUnslashed]

/-- C2: `replaceRelativePaths` is the left-to-right scan of the body that
(i) rewrites every occurrence of `href`/`src`/`action`, `=`, a quote (`"` or
`'`) and a single `/`, keeping the attribute-name/quote prefix and replacing
the `/` by the inbound protocol, `//`, the inbound host and `/`, resuming
after the match; (ii) copies every non-matching position unchanged — in
particular a quote followed by `//` is never a match, so protocol-relative
references are left byte-for-byte unchanged, as is any text with no match at
all. -/
theorem C2_replace_relative_paths (protocol host origin : String) :
    (∀ text : String, replaceRelativePaths text protocol host origin =
      ⟨rrpAux (protocol ++ "//" ++ host).data text.data⟩) ∧
    (∀ attr : List Char, ∀ q : Char, ∀ rest : List Char,
      (attr = ['h', 'r', 'e', 'f'] ∨ attr = ['s', 'r', 'c'] ∨
        attr = ['a', 'c', 't', 'i', 'o', 'n']) →
      quoteCh q = true → headUnslashed rest = true →
      rrpAux (protocol ++ "//" ++ host).data (attr ++ '=' :: q :: '/' :: rest) =
        attr ++ '=' :: q :: ((protocol ++ "//" ++ host).data ++ '/' ::
          rrpAux (protocol ++ "//" ++ host).data rest)) ∧
    (∀ attr : List Char, ∀ q : Char, ∀ rest : List Char,
      (attr = ['h', 'r', 'e', 'f'] ∨ attr = ['s', 'r', 'c'] ∨
        attr = ['a', 'c', 't', 'i', 'o', 'n']) →
      headMatchAttr (attr ++ '=' :: q :: '/' :: '/' :: rest) = false) ∧
    (∀ c : Char, ∀ cs : List Char, headMatchAttr (c :: cs) = false →
      rrpAux (protocol ++ "//" ++ host).data (c :: cs) =
        c :: rrpAux (protocol ++ "//" ++ host).data cs) ∧
    (∀ t : List Char, (∀ i : Nat, headMatchAttr (t.drop i) = false) →
      rrpAux (protocol ++ "//" ++ host).data t = t) := by
  refine ⟨fun _ => rfl, ?_, ?_, ?_, ?_⟩
  · intro attr q rest hattr hq hr
    exact rrpAux_match _ attr q rest hattr hq hr
  · intro attr q rest hattr
    exact headMatchAttr_protocol_relative attr q rest hattr
  · intro c cs h
    exact rrpAux_nomatch _ c cs h
  · intro t h
    exact rrpAux_id _ t h

/-- C2 witness: the spec's example pair — `<img src="/logo.png">` served at
`https://proxy.example` rewrites to `<img src="https://proxy.example/logo.png">`,
while the protocol-relative `<img src="//cdn.example/logo.png">` is
unchanged; the third conjunct applies the theorem's match clause at the
`src` occurrence. -/
theorem C2_replace_relative_paths_witness :
    replaceRelativePaths "<img src=\"/logo.png\">" "https:" "proxy.example"
      "https://upstream.example" = "<img src=\"https://proxy.example/logo.png\">" ∧
    replaceRelativePaths "<img src=\"//cdn.example/logo.png\">" "https:" "proxy.example"
      "https://upstream.example" = "<img src=\"//cdn.example/logo.png\">" ∧
    rrpAux ("https:" ++ "//" ++ "proxy.example").data
        (['s', 'r', 'c'] ++ '=' :: '"' :: '/' :: ['l', 'o', 'g', 'o']) =
      ['s', 'r', 'c'] ++ '=' :: '"' :: (("https:" ++ "//" ++ "proxy.example").data ++ '/' ::
        rrpAux ("https:" ++ "//" ++ "proxy.example").data ['l', 'o', 'g', 'o']) := by
  refine ⟨by decide, by decide, ?_⟩
  exact (C2_replace_relative_paths "https:" "proxy.example" "https://upstream.example").2.1
    ['s', 'r', 'c'] '"' ['l', 'o', 'g', 'o'] (Or.inr (Or.inl rfl)) (by decide) (by decide)

/-- C6 witness: concrete instances of both branches. -/
theorem C6_ensureProtocol_witness :
    ensureProtocol "https://example.com" "http:" = "https://example.com" ∧
    ensureProtocol "example.com/a" "https:" = "https://example.com/a" := by
  refine ⟨(C6_ensureProtocol "https://example.com" "http:").1 (Or.inr (by decide)), ?_⟩
  have h := ((C6_ensureProtocol "example.com/a" "https:").2 (by decide) (by decide)).1
  rw [h]
  decide

/-- C5: for every inbound request whose path is exactly `/`, and for every
HTTP method (the `method` field of the request is unconstrained), the
handler returns status 200 with `Content-Type: text/html; charset=utf-8`
and performs no outbound fetch (the recorded fetch list is empty). -/
theorem C5_root_response (request : InRequest) (up : JsResponse)
    (h : request.pathname = "/") :
    (handleRequest request up).1.status = 200 ∧
    hget (handleRequest request up).1.headers "Content-Type" =
      some "text/html; charset=utf-8" ∧
    (handleRequest request up).2 = [] := by
  have hcore : handleRequestCore request up =
      (.ok { status := 200, statusText := "",
             headers := [("content-type", "text/html; charset=utf-8")],
             body := getRootHtml }, []) := by
    unfold handleRequestCore
    rw [if_pos h]
  unfold handleRequest
  rw [hcore]
  exact ⟨rfl, by decide, rfl⟩

/-- C5 witness: a concrete root request (here with method POST) against an
arbitrary concrete upstream response. -/
theorem C5_root_response_witness :
    (handleRequest
        { protocol := "https:", host := "proxy.example", pathname := "/",
          search := "", method := "POST", headers := [], body := none }
        { status := 404, statusText := "Not Found", headers := [], body := "" }).1.status =
      200 ∧
    (handleRequest
        { protocol := "https:", host := "proxy.example", pathname := "/",
          search := "", method := "POST", headers := [], body := none }
        { status := 404, statusText := "Not Found", headers := [], body := "" }).2 = [] := by
  have h := C5_root_response
    { protocol := "https:", host := "proxy.example", pathname := "/",
      search := "", method := "POST", headers := [], body := none }
    { status := 404, statusText := "Not Found", headers := [], body := "" } rfl
  exact ⟨h.1, h.2.2⟩

/-- C3: whenever any step of the per-request pipeline raises an error (the
`try` body evaluates to `.error e`, covering malformed percent-encoding,
unparsable target URLs and failed redirect resolution alike), the handler
returns status 500 with `Content-Type: application/json; charset=utf-8` and
the body `JSON.stringify({error: e})`, whose single key is `"error"` with
the error message as value.  `handleRequest` is a total function, so no
exception escapes it. -/
theorem C3_error_response (request : InRequest) (up : JsResponse) (e : String)
    (h : (handleRequestCore request up).1 = .error e) :
    (handleRequest request up).1.status = 500 ∧
    hget (handleRequest request up).1.headers "Content-Type" =
      some "application/json; charset=utf-8" ∧
    (handleRequest request up).1.body = jsonStringifyError e := by
  unfold handleRequest
  rw [h]
  refine ⟨rfl, ?_, rfl⟩
  show hget [("content-type", "application/json; charset=utf-8")] "Content-Type" =
    some "application/json; charset=utf-8"
  decide

/-- C3 witness: the malformed percent-encoded path `/%zz` produces the 500
JSON error response with message `URI malformed`. -/
theorem C3_error_response_witness :
    (handleRequest
        { protocol := "https:", host := "proxy.example", pathname := "/%zz",
          search := "", method := "GET", headers := [], body := none }
        { status := 200, statusText := "OK", headers := [], body := "" }).1.status = 500 ∧
    (handleRequest
        { protocol := "https:", host := "proxy.example", pathname := "/%zz",
          search := "", method := "GET", headers := [], body := none }
        { status := 200, statusText := "OK", headers := [], body := "" }).1.body =
      "\x7b\"error\":\"URI malformed\"\x7d" := by
  have h := C3_error_response
    { protocol := "https:", host := "proxy.example", pathname := "/%zz",
      search := "", method := "GET", headers := [], body := none }
    { status := 200, statusText := "OK", headers := [], body := "" }
    "URI malformed" (by decide)
  exact ⟨h.1, by rw [h.2.2]; decide⟩

end Worker
